import Mathlib

/-!
Verification of the `structd` core of the canpacis/scanner repository: the
reflective, tag-driven decoding engine (`Decoder.Decode`), the default
coercion subsystem (`DefaultCast` with its numeric `parse` helper), and the
error taxonomy (`CastError`, `UnmarshalerError`, `InvalidUnmarshalError`,
`UnmarshalTypeError`).

The Go code is shallowly embedded: Go's `reflect.Type` becomes `GoType`,
dynamically typed `any` values become the closed `GoValue` universe that the
code can actually produce or inspect, Go errors become the `GoErr`
inductive, and a call that can `panic` (an unchecked `reflect.Value.Set` or
`reflect.Append` with a non-assignable value) is an explicit `.pnc` outcome.
Machine integers are modelled as `Int`/`Nat` with explicit range checks
mirroring `strconv`'s documented bit-width behaviour; the platform-dependent
`int`/`uint` are 64 bits, as on the 64-bit targets the repository tests run
on.  `strconv.ParseFloat` is modelled on its documented decimal syntax with
exact rational values and the documented overflow boundary; float values are
carried as exact rationals, which is sufficient because no property in this
development depends on rounding.
-/

namespace Structd

/-- The twelve numeric kinds of the `numbers` generic constraint in the
source (`int | int8 | ... | uint64 | float32 | float64`). -/
inductive NumKind where
  | ki | ki8 | ki16 | ki32 | ki64
  | ku | ku8 | ku16 | ku32 | ku64
  | kf32 | kf64
deriving DecidableEq, Repr

/-- `reflect.Type.Bits()` for each numeric kind; `int`/`uint` are 64-bit. -/
def NumKind.bits : NumKind → Nat
  | .ki => 64 | .ki8 => 8 | .ki16 => 16 | .ki32 => 32 | .ki64 => 64
  | .ku => 64 | .ku8 => 8 | .ku16 => 16 | .ku32 => 32 | .ku64 => 64
  | .kf32 => 32 | .kf64 => 64

/-- Whether the kind is one of the two floating-point kinds. -/
def NumKind.isFloat : NumKind → Bool
  | .kf32 | .kf64 => true
  | _ => false

/-- Whether the kind is one of the five unsigned integer kinds. -/
def NumKind.isUint : NumKind → Bool
  | .ku | .ku8 | .ku16 | .ku32 | .ku64 => true
  | _ => false

/-- Whether the kind is an integer (signed or unsigned) kind. -/
def NumKind.isInt (k : NumKind) : Bool := !k.isFloat

/-- The Go name of the predeclared type of each numeric kind. -/
def NumKind.goName : NumKind → String
  | .ki => "int" | .ki8 => "int8" | .ki16 => "int16"
  | .ki32 => "int32" | .ki64 => "int64"
  | .ku => "uint" | .ku8 => "uint8" | .ku16 => "uint16"
  | .ku32 => "uint32" | .ku64 => "uint64"
  | .kf32 => "float32" | .kf64 => "float64"

/-- Kinds of the predeclared scalar types. -/
inductive PKind where
  | pbool
  | pstring
  | pnum : NumKind → PKind
deriving DecidableEq, Repr

/-- Embedding of `reflect.Type` for the types the `structd` core can
observe: predeclared scalars, slices, pointers, a (field-elided) anonymous
struct base, and user-defined (named) types over an underlying type. -/
inductive GoType where
  | prim : PKind → GoType
  | sliceT : GoType → GoType
  | ptrT : GoType → GoType
  | structB : GoType
  | named : String → GoType → GoType
deriving DecidableEq, Repr

/-- `reflect.Kind` as dispatched on by the source. -/
inductive Kind where
  | kbool
  | kstring
  | knum : NumKind → Kind
  | kslice
  | kptr
  | kstruct
deriving DecidableEq, Repr

/-- `reflect.Type.Kind()`: a named type has the kind of its underlying type. -/
def kindOf : GoType → Kind
  | .prim .pbool => .kbool
  | .prim .pstring => .kstring
  | .prim (.pnum k) => .knum k
  | .sliceT _ => .kslice
  | .ptrT _ => .kptr
  | .structB => .kstruct
  | .named _ u => kindOf u

/-- `reflect.Type.Elem()` for slice and pointer kinds (looking through
named types, as `reflect` does via the underlying type). -/
def elemTy : GoType → GoType
  | .sliceT e => e
  | .ptrT e => e
  | .named _ u => elemTy u
  | t => t

/-- Whether the type is a defined (named) type in the sense of Go's
assignability rules; predeclared types are defined, composites are not. -/
def isDefinedTy : GoType → Bool
  | .prim _ => true
  | .sliceT _ => false
  | .ptrT _ => false
  | .structB => false
  | .named _ _ => true

/-- The underlying type, per the Go specification. -/
def underlyingTy : GoType → GoType
  | .named _ u => underlyingTy u
  | t => t

/-- Go assignability between non-interface types as used by
`reflect.Type.AssignableTo` and `reflect.Value.Set`: identical types, or
identical underlying types with at least one operand not a defined type. -/
def assignable (v t : GoType) : Bool :=
  v = t || (underlyingTy v = underlyingTy t && (!isDefinedTy v || !isDefinedTy t))

/-- `reflect.Type.Name()`: empty for unnamed composite types. -/
def typeName : GoType → String
  | .prim .pbool => "bool"
  | .prim .pstring => "string"
  | .prim (.pnum k) => k.goName
  | .sliceT _ => ""
  | .ptrT _ => ""
  | .structB => ""
  | .named n _ => n

/-- `reflect.Type.String()` (package qualifiers of named types elided). -/
def typeString : GoType → String
  | .prim .pbool => "bool"
  | .prim .pstring => "string"
  | .prim (.pnum k) => k.goName
  | .sliceT e => "[]" ++ typeString e
  | .ptrT e => "*" ++ typeString e
  | .structB => "struct {}"
  | .named n _ => n

/-- The dynamic values the embedded code produces and inspects: the nil
interface, strings, numeric values (exact rationals; integer kinds always
carry integral values in any state reachable from the code), booleans,
non-nil slices tagged with their dynamic slice type, and instances of named
types whose contents are summarised by a textual state (sufficient for the
repository's `Unmarshaler` implementations, whose state is one string). -/
inductive GoValue where
  | vnil
  | vstr : String → GoValue
  | vnum : NumKind → ℚ → GoValue
  | vbool : Bool → GoValue
  | vslice : GoType → List GoValue → GoValue
  | vnamed : GoType → String → GoValue

/-- `reflect.TypeOf` on a non-nil value (`.vnil` is mapped to a dummy;
every use in the embedding is guarded by a nil check, as in the source). -/
def dynTy : GoValue → GoType
  | .vnil => .structB
  | .vstr _ => .prim .pstring
  | .vnum k _ => .prim (.pnum k)
  | .vbool _ => .prim .pbool
  | .vslice t _ => t
  | .vnamed t _ => t

/-- `reflect.Value.IsZero`: zero string, zero number, false, and (for the
named instances) zero state; slices in the universe are non-nil, hence
never zero. -/
def isZero : GoValue → Bool
  | .vnil => true
  | .vstr s => s = ""
  | .vnum _ q => q = 0
  | .vbool b => !b
  | .vslice _ _ => false
  | .vnamed _ st => st = ""

/-- The `strconv` error payloads (`ErrRange` / `ErrSyntax`). -/
inductive StrconvKind where
  | rangeK
  | syntaxK
deriving DecidableEq, Repr

/-- The error taxonomy of `structd/error.go` plus the external errors the
core wraps: `*strconv.NumError` (function name, input, range/syntax),
`errors.ErrUnsupported`, `UnmarshalerError` (wrapped user error message,
offending value, target type), `CastError`, `InvalidUnmarshalError`
(carrying `nil` or a type), and `UnmarshalTypeError` (value type name,
target type, struct name, field name). -/
inductive GoErr where
  | numError : String → String → StrconvKind → GoErr
  | unsupported : GoErr
  | unmarshalerError : String → String → GoType → GoErr
  | castError : GoErr → GoErr
  | invalidUnmarshal : Option GoType → GoErr
  | unmarshalTypeError : String → GoType → String → String → GoErr
deriving DecidableEq, Repr

/-- Result of a Go call that returns `(value, error)` but may also panic. -/
inductive Out (α : Type) where
  | ok : α → Out α
  | err : GoErr → Out α
  | pnc : Out α

/-! ## strconv models -/

/-- Value of a non-empty all-digit run (helper for the `strconv` models). -/
def digitsVal (l : List Char) : Nat :=
  l.foldl (fun a c => a * 10 + (c.toNat - 48)) 0

/-- Base-10 digit parsing as `strconv.ParseUint(s, 10, _)` accepts it:
non-empty, decimal digits only (no sign, no underscores at base 10). -/
def decDigits? (l : List Char) : Option Nat :=
  if l = [] then none
  else if l.all Char.isDigit then some (digitsVal l) else none

/-- Signed decimal literal as `strconv.ParseInt(s, 10, _)` accepts it: an
optional single leading sign followed by a `ParseUint` digit run. -/
def intLit? : List Char → Option Int
  | [] => none
  | c :: r =>
    if c = '+' then (decDigits? r).map Int.ofNat
    else if c = '-' then (decDigits? r).map (fun n => -(n : Int))
    else (decDigits? (c :: r)).map Int.ofNat

/-- Decimal-notation float syntax accepted by `strconv.ParseFloat`
(sign, digits with optional fraction, optional decimal exponent), mapped to
its exact rational value.  The hexadecimal, `inf` and `NaN` forms of
`ParseFloat` are outside the modelled universe.  Powers of ten are taken
in `Nat` so that every value computes by kernel reduction. -/
def decValue (sgn : Int) (digs : Nat) (s : Int) : ℚ :=
  if 0 ≤ s then mkRat (sgn * digs * (10 ^ s.toNat : Nat)) 1
  else mkRat (sgn * digs) (10 ^ (-s).toNat)

/-- Exponent digit run with optional sign. -/
def expDigits? (r : List Char) : Option Int :=
  let p : (Int × List Char) :=
    match r with
    | '+' :: t => (1, t)
    | '-' :: t => (-1, t)
    | t => (1, t)
  let ed := p.2.takeWhile Char.isDigit
  if ed = [] ∨ p.2.dropWhile Char.isDigit ≠ [] then none
  else some (p.1 * (digitsVal ed : Int))

/-- Optional exponent suffix following the mantissa; the empty suffix is
exponent `0`. -/
def expSuffix? : List Char → Option Int
  | [] => some 0
  | 'e' :: r => expDigits? r
  | 'E' :: r => expDigits? r
  | _ => none

/-- The mantissa-and-exponent grammar of decimal `ParseFloat` inputs,
mapped to the exact rational value `sign * digits * 10 ^ exponent`. -/
def floatSyn? (l : List Char) : Option ℚ :=
  let p : (Int × List Char) :=
    match l with
    | '+' :: r => (1, r)
    | '-' :: r => (-1, r)
    | r => (1, r)
  let ip := p.2.takeWhile Char.isDigit
  let rest := p.2.dropWhile Char.isDigit
  match rest with
  | '.' :: r2 =>
    let fp := r2.takeWhile Char.isDigit
    let rest2 := r2.dropWhile Char.isDigit
    if ip = [] ∧ fp = [] then none
    else (expSuffix? rest2).map fun e => decValue p.1 (digitsVal (ip ++ fp)) (e - fp.length)
  | _ =>
    if ip = [] then none
    else (expSuffix? rest).map fun e => decValue p.1 (digitsVal ip) e

/-- The documented overflow boundary of `strconv.ParseFloat` for a given
bit width: values whose magnitude reaches the rounding boundary above the
largest finite value of the width yield `ErrRange`. -/
def fltBound (bits : Nat) : ℚ :=
  if bits = 32 then ((2 ^ 128 - 2 ^ 103 : Nat) : ℚ) else ((2 ^ 1024 - 2 ^ 970 : Nat) : ℚ)

/-- `bound ≤ |q|`, decided on numerators and denominators so that it
kernel-reduces (valid since denominators are positive). -/
def fltOverflow (bound q : ℚ) : Bool :=
  bound.num * (q.den : Int) ≤ (q.num.natAbs : Int) * (bound.den : Int)

/-- Signed range check of `ParseInt` at a bit width. -/
def inRangeI (bits : Nat) (v : Int) : Prop :=
  -(2 ^ (bits - 1) : Int) ≤ v ∧ v < 2 ^ (bits - 1)

instance (bits : Nat) (v : Int) : Decidable (inRangeI bits v) := by
  unfold inRangeI; infer_instance

/-- The generic `parse[T numbers]` of the source: dispatch on the kind of
`T`, calling `strconv.ParseFloat`, `ParseUint` or `ParseInt` with exactly
`reflect.TypeOf(n).Bits()` bits, and returning the zero value together with
the `strconv` error on failure (modelled by the valueless `.err`). -/
def parseNum (k : NumKind) (s : String) : Out GoValue :=
  if k.isFloat then
    match floatSyn? s.data with
    | none => .err (.numError "ParseFloat" s .syntaxK)
    | some q =>
      if fltOverflow (fltBound k.bits) q then .err (.numError "ParseFloat" s .rangeK)
      else .ok (.vnum k q)
  else if k.isUint then
    match decDigits? s.data with
    | none => .err (.numError "ParseUint" s .syntaxK)
    | some n =>
      if n < 2 ^ k.bits then .ok (.vnum k (n : ℚ))
      else .err (.numError "ParseUint" s .rangeK)
  else
    match intLit? s.data with
    | none => .err (.numError "ParseInt" s .syntaxK)
    | some v =>
      if inRangeI k.bits v then .ok (.vnum k (v : ℚ))
      else .err (.numError "ParseInt" s .rangeK)

/-- `strconv.ParseBool`: the canonical literals only. -/
def parseBoolM (s : String) : Out Bool :=
  if s = "1" ∨ s = "t" ∨ s = "T" ∨ s = "TRUE" ∨ s = "true" ∨ s = "True" then .ok true
  else if s = "0" ∨ s = "f" ∨ s = "F" ∨ s = "FALSE" ∨ s = "false" ∨ s = "False" then .ok false
  else .err (.numError "ParseBool" s .syntaxK)

/-! ## fmt model -/

/-- Decimal digits of a natural number, most significant first; the fuel
argument (always instantiated with `n + 1`) makes the recursion structural. -/
def natDecAux : Nat → Nat → List Char
  | 0, _ => []
  | f + 1, n =>
    if n < 10 then [Nat.digitChar n]
    else natDecAux f (n / 10) ++ [Nat.digitChar (n % 10)]

/-- Canonical decimal text of a natural number. -/
def natDec (n : Nat) : String := ⟨natDecAux (n + 1) n⟩

/-- Canonical decimal text of an integer, as `fmt`'s `%d` prints it. -/
def intDec (n : Int) : String :=
  if n < 0 then ⟨'-' :: (natDec n.natAbs).data⟩ else natDec n.toNat

/-- Rendering of a rational as `fmt`'s `%v`; exact for the integral values
that occur in this development. -/
def ratShow (q : ℚ) : String :=
  if q.den = 1 then intDec q.num else intDec q.num ++ "/" ++ natDec q.den

/-- `fmt.Sprintf("%d", from)` on a numeric `any`: base-10 decimal for the
integer kinds; for a float argument `%d` is a bad verb and `fmt` emits the
error-annotated string `%!d(float64=v)` instead of a number. -/
def fmtD (k : NumKind) (q : ℚ) : String :=
  if k.isFloat then "%!d(" ++ k.goName ++ "=" ++ ratShow q ++ ")"
  else intDec q.num

/-! ## strings.Split model -/

/-- `strings.Split(s, ",")` on the character list (the separator is the
one-character `DefaultSeperator` constant of the source). -/
def splitComma : List Char → List (List Char)
  | [] => [[]]
  | c :: cs =>
    if c = ',' then [] :: splitComma cs
    else
      match splitComma cs with
      | [] => [[c]]
      | g :: gs => (c :: g) :: gs

/-- `strings.Split(s, DefaultSeperator)`. -/
def goSplit (s : String) : List String :=
  (splitComma s.data).map fun l => ⟨l⟩

/-! ## DefaultCast -/

/-- The `Unmarshaler` method table: maps the name of a defined type to the
behaviour of `UnmarshalString` on a freshly allocated zero instance —
`none` when the type's pointer does not implement `Unmarshaler`.  The
result is the instance state after the call, or the user error's message. -/
def UEnv : Type := String → Option (String → Except String String)

/-- Whether `reflect.New(to).Interface().(Unmarshaler)` succeeds: only a
defined (named) type can have methods. -/
def umLookup (env : UEnv) : GoType → Option (String → Except String String)
  | .named n _ => env n
  | _ => none

/-- Whether the interface value is the nil interface (`target == nil`). -/
def isNil : GoValue → Bool
  | .vnil => true
  | _ => false

/-- Whether `reflect.Append`/`reflect.Value.Set` accepts the value for an
element (or field) of type `t` without panicking: the value is a usable
(non-nil-interface) value whose dynamic type is assignable to `t`. -/
def setOK (v : GoValue) (t : GoType) : Bool :=
  !(isNil v) && assignable (dynTy v) t

/-- The element loop of `DefaultCast`'s slice branch: cast each part with
`c`, aborting on the first element error; each successful element is pushed
with `reflect.Append`, which panics when the element value is not
assignable to the element type `τ`. -/
def castParts (c : String → Out GoValue) (τ : GoType) : List String → Out (List GoValue)
  | [] => .ok []
  | e :: rest =>
    match c e with
    | .err er => .err er
    | .pnc => .pnc
    | .ok v =>
      if setOK v τ then
        match castParts c τ rest with
        | .ok vs => .ok (v :: vs)
        | .err er => .err er
        | .pnc => .pnc
      else .pnc

/-- Structural depth of a type; bounds the recursion depth of
`DefaultCast`, which only recurses from a slice type into its element
type. -/
def tdepth : GoType → Nat
  | .prim _ => 0
  | .structB => 0
  | .sliceT e => tdepth e + 1
  | .ptrT e => tdepth e + 1
  | .named _ u => tdepth u + 1

/-- `DefaultCast` with explicit recursion fuel (the recursion of the
source terminates because the slice branch recurses into the strictly
smaller element type; the fuel makes that structural).  Branches mirror the
source: a `string` source value dispatches on the target kind — the twelve
numeric cases call `parse[T]` (merged here into `parseNum`), `Bool` calls
`ParseBool`, `Slice` splits on the comma and either returns the split parts
verbatim (`[]string`) for string elements or element-casts recursively, and
every other kind takes the `Unmarshaler` path; a numeric source value
formats with `%d` for a `String` target and compares `from != 0` for a
`Bool` target — an interface comparison against `any(int(0))`, so it is
false only for the predeclared `int` zero; a `bool` source value prints
canonical literals for `String` and parses `"1"`/`"0"` for numeric targets;
everything else is `errors.ErrUnsupported`. -/
def castFuel (env : UEnv) : Nat → GoValue → GoType → Out GoValue
  | 0, _, _ => .pnc
  | f + 1, v, tgt =>
    match v with
    | .vstr s =>
      match kindOf tgt with
      | .knum k => parseNum k s
      | .kbool =>
        match parseBoolM s with
        | .ok b => .ok (.vbool b)
        | .err e => .err e
        | .pnc => .pnc
      | .kslice =>
        match kindOf (elemTy tgt) with
        | .kstring => .ok (.vslice (.sliceT (.prim .pstring)) ((goSplit s).map GoValue.vstr))
        | _ =>
          match castParts (fun e => castFuel env f (.vstr e) (elemTy tgt)) (elemTy tgt) (goSplit s) with
          | .ok vs => .ok (.vslice tgt vs)
          | .err er => .err er
          | .pnc => .pnc
      | _ =>
        match umLookup env tgt with
        | none => .err .unsupported
        | some um =>
          match um s with
          | .error m => .err (.unmarshalerError m s tgt)
          | .ok st => .ok (.vnamed tgt st)
    | .vnum k q =>
      match kindOf tgt with
      | .kstring => .ok (.vstr (fmtD k q))
      | .kbool => .ok (.vbool (!decide (k = NumKind.ki ∧ q = 0)))
      | _ => .err .unsupported
    | .vbool b =>
      match kindOf tgt with
      | .kstring => .ok (.vstr (if b then "true" else "false"))
      | .knum k => parseNum k (if b then "1" else "0")
      | _ => .err .unsupported
    | _ => .err .unsupported

/-- `structd.DefaultCast(from, to)`.  The fuel `tdepth to + 1` strictly
dominates the recursion depth, so this equals the source's unbounded
recursion (see `castFuel_irrel`). -/
def DefaultCast (env : UEnv) (v : GoValue) (tgt : GoType) : Out GoValue :=
  castFuel env (tdepth tgt + 1) v tgt

/-! ## Decoder.Decode -/

/-- One exported-or-not struct field with its resolved tag under the
decoder's key namespace (`field.Tag.Lookup(d.key)`), declared type, and
current value. -/
structure Field where
  fname : String
  exported : Bool
  tag : Option String
  ftype : GoType
  value : GoValue

/-- A `Getter` that may also implement the optional `caster` capability
(`cast = none` models a source whose dynamic type assertion to `caster`
fails). -/
structure Source where
  get : String → GoValue
  cast : Option (GoValue → GoType → Out GoValue)

/-- What one iteration of the decode loop does to a field. -/
inductive FieldAct where
  | skip
  | setTo : GoValue → FieldAct
  | fail : GoErr → FieldAct
  | pnc : FieldAct

/-- The body of the field loop of `Decoder.Decode`: skip unexported or
untagged fields, skip absent (`nil`) or zero lookups; assign directly when
the raw value's type is assignable; otherwise invoke the caster — a cast
error aborts wrapped as `CastError`, and a successful cast is assigned by
`value.Set(reflect.ValueOf(casted))`, which panics when the cast result is
nil or not assignable; with no caster the loop aborts with
`UnmarshalTypeError`. -/
def procField (sname : String) (src : Source) (f : Field) : FieldAct :=
  if !f.exported then .skip
  else
    match f.tag with
    | none => .skip
    | some key =>
      let t := src.get key
      if isNil t then .skip
      else if isZero t then .skip
      else if !assignable (dynTy t) f.ftype then
        match src.cast with
        | some c =>
          match c t f.ftype with
          | .err e => .fail (.castError e)
          | .pnc => .pnc
          | .ok v => if setOK v f.ftype then .setTo v else .pnc
        | none => .fail (.unmarshalTypeError (typeName (dynTy t)) f.ftype sname f.fname)
      else .setTo t

/-- Overall outcome of a decode: the final field states together with
normal return, an error return, or a panic. -/
inductive DecOut where
  | ok : List Field → DecOut
  | err : List Field → GoErr → DecOut
  | pnc : List Field → DecOut

/-- Prepend a (possibly updated) field to a decode outcome. -/
def DecOut.push (f : Field) : DecOut → DecOut
  | .ok l => .ok (f :: l)
  | .err l e => .err (f :: l) e
  | .pnc l => .pnc (f :: l)

/-- The final field states of an outcome. -/
def DecOut.fields : DecOut → List Field
  | .ok l => l
  | .err l _ => l
  | .pnc l => l

/-- The field loop of `Decoder.Decode` in declaration order, fail-fast:
an abort leaves the current and all later fields at their pre-decode
values. -/
def decodeFields (sname : String) (src : Source) : List Field → DecOut
  | [] => .ok []
  | f :: fs =>
    match procField sname src f with
    | .skip => (decodeFields sname src fs).push f
    | .setTo v => (decodeFields sname src fs).push { f with value := v }
    | .fail e => .err (f :: fs) e
    | .pnc => .pnc (f :: fs)

/-- The argument passed to `Decode`, classified exactly as the two
reflective guards of the source observe it: the nil interface, a non-pointer
value of some type, a nil pointer (with its element type), a non-nil pointer
to a non-struct element type, or a non-nil pointer to a struct with its
fields. -/
inductive Target where
  | tnil
  | nonPtr : GoType → Target
  | nilPtr : GoType → Target
  | ptrNonStruct : GoType → Target
  | ptrStruct : String → List Field → Target

/-- `Decoder.Decode(v)`: the two guards return `InvalidUnmarshalError` —
note that for a non-nil pointer to a non-struct the stored type is the
element type (`rt = rt.Elem()` has already run), while for a nil pointer it
is the original pointer type; a valid target runs the field loop. -/
def Decode (src : Source) : Target → DecOut
  | .tnil => .err [] (.invalidUnmarshal none)
  | .nonPtr t => .err [] (.invalidUnmarshal (some t))
  | .nilPtr t => .err [] (.invalidUnmarshal (some (.ptrT t)))
  | .ptrNonStruct t => .err [] (.invalidUnmarshal (some t))
  | .ptrStruct n fs => decodeFields n src fs

/-! ## Error rendering (error.go) -/

/-- `InvalidUnmarshalError.Error()`. -/
def invalidMsg : Option GoType → String
  | none => "structd: Unmarshal(nil)"
  | some t =>
    if kindOf t ≠ .kptr then "structd: Unmarshal(non-pointer " ++ typeString t ++ ")"
    else if kindOf (elemTy t) ≠ .kstruct then "structd: Unmarshal(non-struct " ++ typeString t ++ ")"
    else "structd: Unmarshal(nil " ++ typeString t ++ ")"

/-- The `Error()` strings of the error taxonomy (with `strconv.Quote`
modelled as plain quoting, exact for escape-free inputs). -/
def errMsg : GoErr → String
  | .numError fn num k =>
    "strconv." ++ fn ++ ": parsing \"" ++ num ++ "\": " ++
      (match k with
       | .rangeK => "value out of range"
       | .syntaxK => "invalid syntax")
  | .unsupported => "unsupported operation"
  | .unmarshalerError m v t =>
    "structd: unmarshaler " ++ typeName t ++ " failed to unmarshal value '" ++ v ++ "': " ++ m
  | .castError e => "cast error: " ++ errMsg e
  | .invalidUnmarshal t => invalidMsg t
  | .unmarshalTypeError v t sn fl =>
    if sn ≠ "" ∨ fl ≠ "" then
      "structd: cannot unmarshal " ++ v ++ " into Go struct field " ++ sn ++ "." ++ fl ++
        " of type " ++ typeString t
    else "structd: cannot unmarshal " ++ v ++ " into Go value of type " ++ typeString t

/-! ## Shorthands for common concrete types and environments -/

/-- The predeclared `string` type. -/
def stringT : GoType := .prim .pstring

/-- The predeclared `bool` type. -/
def boolT : GoType := .prim .pbool

/-- A numeric predeclared type. -/
def numT (k : NumKind) : GoType := .prim (.pnum k)

/-- An environment with no `Unmarshaler` implementations. -/
def env0 : UEnv := fun _ => none

/-- A source with no values and no caster. -/
def src0 : Source := ⟨fun _ => .vnil, none⟩

/-! ## Auxiliary definitions for the statements -/

/-- Loop steps that do not abort the decode. -/
def FieldAct.isStep : FieldAct → Bool
  | .skip => true
  | .setTo _ => true
  | _ => false

/-- The effect of one non-aborting loop iteration on its field. -/
def applyProc (sname : String) (src : Source) (g : Field) : Field :=
  match procField sname src g with
  | .setTo v => { g with value := v }
  | _ => g

/-- The exact integer denoted by an input accepted by the `strconv`
integer parser the kind dispatches to. -/
def numLit? (k : NumKind) (s : String) : Option Int :=
  if k.isUint then (decDigits? s.data).map Int.ofNat else intLit? s.data

/-- The `strconv` function name the kind dispatches to. -/
def pfn (k : NumKind) : String := if k.isUint then "ParseUint" else "ParseInt"

/-- Whether an integer is representable at the kind's declared bit width. -/
def intRangeB (k : NumKind) (n : Int) : Bool :=
  if k.isUint then decide (0 ≤ n ∧ n < 2 ^ k.bits) else decide (inRangeI k.bits n)

/-! ## Fuel elimination for DefaultCast -/

lemma tdepth_elem_lt : ∀ tgt : GoType, kindOf tgt = .kslice → tdepth (elemTy tgt) < tdepth tgt := by
  intro tgt
  induction tgt with
  | prim p => cases p <;> simp [kindOf]
  | sliceT e ih => intro; simp [elemTy, tdepth]
  | ptrT e ih => simp [kindOf]
  | structB => simp [kindOf]
  | named n u ih =>
    intro h
    have := ih (by simpa [kindOf] using h)
    simp only [elemTy, tdepth]
    omega

lemma castFuel_irrel (env : UEnv) :
    ∀ (f g : Nat) (v : GoValue) (tgt : GoType),
      tdepth tgt < f → tdepth tgt < g → castFuel env f v tgt = castFuel env g v tgt := by
  intro f
  induction f with
  | zero => intro g v tgt hf; omega
  | succ f ih =>
    intro g v tgt hf hg
    match g, hg with
    | g + 1, hg =>
      show castFuel env (f + 1) v tgt = castFuel env (g + 1) v tgt
      cases v with
      | vstr s =>
        simp only [castFuel]
        cases hk : kindOf tgt with
        | kslice =>
          have helem := tdepth_elem_lt tgt hk
          have harg :
              (fun e => castFuel env f (.vstr e) (elemTy tgt)) =
                (fun e => castFuel env g (.vstr e) (elemTy tgt)) := by
            funext e
            exact ih g (.vstr e) (elemTy tgt) (by omega) (by omega)
          rw [harg]
        | kbool => rfl
        | kstring => rfl
        | knum k => rfl
        | kptr => rfl
        | kstruct => rfl
      | vnil => rfl
      | vnum k q => rfl
      | vbool b => rfl
      | vslice t l => rfl
      | vnamed t st => rfl

/-! ## Dispatch equations for DefaultCast -/

lemma DefaultCast_vstr_num (env : UEnv) (s : String) (tgt : GoType) (k : NumKind)
    (hk : kindOf tgt = .knum k) :
    DefaultCast env (.vstr s) tgt = parseNum k s := by
  simp only [DefaultCast, castFuel, hk]

lemma DefaultCast_vstr_bool (env : UEnv) (s : String) (tgt : GoType)
    (hk : kindOf tgt = .kbool) :
    DefaultCast env (.vstr s) tgt =
      (match parseBoolM s with
       | .ok b => .ok (.vbool b)
       | .err e => .err e
       | .pnc => .pnc) := by
  simp only [DefaultCast, castFuel, hk]

lemma DefaultCast_vstr_slice_string (env : UEnv) (s : String) (tgt : GoType)
    (hk : kindOf tgt = .kslice) (he : kindOf (elemTy tgt) = .kstring) :
    DefaultCast env (.vstr s) tgt =
      .ok (.vslice (.sliceT (.prim .pstring)) ((goSplit s).map GoValue.vstr)) := by
  simp only [DefaultCast, castFuel, hk, he]

lemma castFuel_vstr_slice (env : UEnv) (f : Nat) (s : String) (tgt : GoType)
    (hk : kindOf tgt = .kslice) (he : kindOf (elemTy tgt) ≠ .kstring) :
    castFuel env (f + 1) (.vstr s) tgt =
      (match castParts (fun e => castFuel env f (.vstr e) (elemTy tgt)) (elemTy tgt) (goSplit s) with
       | .ok vs => .ok (.vslice tgt vs)
       | .err er => .err er
       | .pnc => .pnc) := by
  simp only [castFuel, hk]

lemma DefaultCast_vstr_slice (env : UEnv) (s : String) (tgt : GoType)
    (hk : kindOf tgt = .kslice) (he : kindOf (elemTy tgt) ≠ .kstring) :
    DefaultCast env (.vstr s) tgt =
      (match castParts (fun e => DefaultCast env (.vstr e) (elemTy tgt)) (elemTy tgt) (goSplit s) with
       | .ok vs => .ok (.vslice tgt vs)
       | .err er => .err er
       | .pnc => .pnc) := by
  have helem := tdepth_elem_lt tgt hk
  have harg :
      (fun e => castFuel env (tdepth tgt) (.vstr e) (elemTy tgt)) =
        (fun e => DefaultCast env (.vstr e) (elemTy tgt)) := by
    funext e
    exact castFuel_irrel env (tdepth tgt) (tdepth (elemTy tgt) + 1) (.vstr e) (elemTy tgt)
      (by omega) (by omega)
  show castFuel env (tdepth tgt + 1) (.vstr s) tgt = _
  rw [castFuel_vstr_slice env (tdepth tgt) s tgt hk he, harg]

lemma DefaultCast_vstr_default (env : UEnv) (s : String) (tgt : GoType)
    (hk : kindOf tgt = .kstring ∨ kindOf tgt = .kptr ∨ kindOf tgt = .kstruct) :
    DefaultCast env (.vstr s) tgt =
      (match umLookup env tgt with
       | none => .err .unsupported
       | some um =>
         match um s with
         | .error m => .err (.unmarshalerError m s tgt)
         | .ok st => .ok (.vnamed tgt st)) := by
  rcases hk with hk | hk | hk <;> simp only [DefaultCast, castFuel, hk]

lemma DefaultCast_vnum (env : UEnv) (k : NumKind) (q : ℚ) (tgt : GoType) :
    DefaultCast env (.vnum k q) tgt =
      (match kindOf tgt with
       | .kstring => .ok (.vstr (fmtD k q))
       | .kbool => .ok (.vbool (!decide (k = NumKind.ki ∧ q = 0)))
       | _ => .err .unsupported) := by
  simp only [DefaultCast, castFuel]

/-! ## castParts characterization -/

lemma castParts_forall₂ (c : String → Out GoValue) (τ : GoType) :
    ∀ (l : List String) (vs : List GoValue),
      List.Forall₂ (fun e v => c e = .ok v ∧ setOK v τ = true) l vs →
      castParts c τ l = .ok vs := by
  intro l vs h
  induction h with
  | nil => rfl
  | cons he _ ih =>
    simp only [castParts, he.1, he.2, if_true, ih]

lemma castParts_err (c : String → Out GoValue) (τ : GoType) :
    ∀ (l1 : List String) (e : String) (l2 : List String) (er : GoErr),
      (∀ e' ∈ l1, ∃ v, c e' = .ok v ∧ setOK v τ = true) →
      c e = .err er →
      castParts c τ (l1 ++ e :: l2) = .err er := by
  intro l1
  induction l1 with
  | nil => intro e l2 er _ he; simp [castParts, he]
  | cons a l1 ih =>
    intro e l2 er hpre he
    obtain ⟨v, hv, hs⟩ := hpre a (by simp)
    simp only [List.cons_append, castParts, hv, hs, if_true, List.append_eq,
      ih e l2 er (fun x hx => hpre x (by simp [hx])) he]

lemma castParts_pnc (c : String → Out GoValue) (τ : GoType) :
    ∀ (l1 : List String) (e : String) (l2 : List String) (v : GoValue),
      (∀ e' ∈ l1, ∃ w, c e' = .ok w ∧ setOK w τ = true) →
      c e = .ok v → setOK v τ = false →
      castParts c τ (l1 ++ e :: l2) = .pnc := by
  intro l1
  induction l1 with
  | nil => intro e l2 v _ he hb; simp [castParts, he, hb]
  | cons a l1 ih =>
    intro e l2 v hpre he hb
    obtain ⟨w, hw, hs⟩ := hpre a (by simp)
    simp only [List.cons_append, castParts, hw, hs, if_true, List.append_eq,
      ih e l2 v (fun x hx => hpre x (by simp [hx])) he hb]

/-! ## Field-loop lemmas -/

lemma DecOut.fields_push (f : Field) (o : DecOut) : (o.push f).fields = f :: o.fields := by
  cases o <;> rfl

lemma procField_skip (sname : String) (src : Source) (f : Field) (k : String)
    (htag : f.tag = some k) (hz : isZero (src.get k) = true) :
    procField sname src f = .skip := by
  by_cases hex : f.exported
  · have hnil : isNil (src.get k) = true ∨ isNil (src.get k) = false := by
      cases isNil (src.get k) <;> simp
    rcases hnil with hnil | hnil <;> simp [procField, hex, htag, hnil, hz]
  · simp [procField, hex]

lemma decodeFields_get? (sname : String) (src : Source) :
    ∀ (fs : List Field) (i : Nat) (f : Field),
      fs[i]? = some f → procField sname src f = .skip →
      ((decodeFields sname src fs).fields)[i]? = some f := by
  intro fs
  induction fs with
  | nil => intro i f h; simp at h
  | cons g fs ih =>
    intro i f hf hskip
    cases i with
    | zero =>
      simp only [List.getElem?_cons_zero, Option.some.injEq] at hf
      subst hf
      simp [decodeFields, hskip, DecOut.fields_push]
    | succ i =>
      simp only [List.getElem?_cons_succ] at hf
      cases hp : procField sname src g with
      | skip => simp [decodeFields, hp, DecOut.fields_push, ih i f hf hskip]
      | setTo v => simp [decodeFields, hp, DecOut.fields_push, ih i f hf hskip]
      | fail e => simp [decodeFields, hp, DecOut.fields, hf]
      | pnc => simp [decodeFields, hp, DecOut.fields, hf]

lemma decodeFields_fail (sname : String) (src : Source) :
    ∀ (pre : List Field) (f : Field) (post : List Field) (e : GoErr),
      (∀ g ∈ pre, (procField sname src g).isStep = true) →
      procField sname src f = .fail e →
      decodeFields sname src (pre ++ f :: post) =
        .err (pre.map (applyProc sname src) ++ f :: post) e := by
  intro pre
  induction pre with
  | nil => intro f post e _ hf; simp [decodeFields, hf]
  | cons g pre ih =>
    intro f post e hpre hf
    have hg := hpre g (by simp)
    have hrec := ih f post e (fun x hx => hpre x (by simp [hx])) hf
    cases hp : procField sname src g with
    | skip =>
      simp [decodeFields, hp, hrec, DecOut.push, applyProc, List.map_cons]
    | setTo v =>
      simp [decodeFields, hp, hrec, DecOut.push, applyProc, List.map_cons]
    | fail e2 => rw [hp] at hg; simp [FieldAct.isStep] at hg
    | pnc => rw [hp] at hg; simp [FieldAct.isStep] at hg

/-! ## Decimal printing parses back to the same number -/

lemma digitsVal_append (l : List Char) (c : Char) :
    digitsVal (l ++ [c]) = digitsVal l * 10 + (c.toNat - 48) := by
  simp [digitsVal, List.foldl_append]

lemma digitChar_spec (d : Nat) (h : d < 10) :
    (Nat.digitChar d).isDigit = true ∧ (Nat.digitChar d).toNat - 48 = d := by
  interval_cases d <;> exact ⟨by decide, by decide⟩

lemma natDecAux_spec :
    ∀ (f n : Nat), n < f →
      natDecAux f n ≠ [] ∧ (natDecAux f n).all Char.isDigit = true ∧
        digitsVal (natDecAux f n) = n := by
  intro f
  induction f with
  | zero => intro n h; omega
  | succ f ih =>
    intro n h
    by_cases h10 : n < 10
    · have hd := digitChar_spec n h10
      refine ⟨by simp [natDecAux, h10], by simp [natDecAux, h10, hd.1], ?_⟩
      simp [natDecAux, h10, digitsVal, hd.2]
    · have hdiv : n / 10 < n := Nat.div_lt_self (by omega) (by omega)
      have hrec := ih (n / 10) (by omega)
      have hmod := digitChar_spec (n % 10) (Nat.mod_lt _ (by omega))
      refine ⟨by simp [natDecAux, h10], ?_, ?_⟩
      · simp [natDecAux, h10, List.all_append, hrec.2.1, hmod.1]
      · have happ := digitsVal_append (natDecAux f (n / 10)) (Nat.digitChar (n % 10))
        simp only [natDecAux, h10, if_false, ite_false, happ, hrec.2.2, hmod.2]
        omega

lemma decDigits?_natDec (n : Nat) : decDigits? (natDec n).data = some n := by
  obtain ⟨h1, h2, h3⟩ := natDecAux_spec (n + 1) n (by omega)
  simp only [natDec]
  simp [decDigits?, h1, h2, h3]

lemma isDigit_ne_sign {c : Char} (h : c.isDigit = true) : ¬c = '+' ∧ ¬c = '-' := by
  constructor <;> rintro rfl <;> exact absurd h (by decide)

lemma intLit?_digits (l : List Char) (h1 : l ≠ []) (h2 : l.all Char.isDigit = true) :
    intLit? l = (decDigits? l).map Int.ofNat := by
  cases l with
  | nil => exact absurd rfl h1
  | cons c r =>
    have hc : c.isDigit = true := by
      simp only [List.all_cons, Bool.and_eq_true] at h2
      exact h2.1
    have hs := isDigit_ne_sign hc
    simp [intLit?, hs.1, hs.2]

lemma intLit?_natDec (n : Nat) : intLit? (natDec n).data = some (n : Int) := by
  obtain ⟨h1, h2, _⟩ := natDecAux_spec (n + 1) n (by omega)
  rw [intLit?_digits (natDec n).data h1 h2, decDigits?_natDec]
  rfl

/-! ## parseNum on printed decimals and out-of-range literals -/

lemma parseNum_uint_def (k : NumKind) (s : String) (hf : k.isFloat = false)
    (hu : k.isUint = true) :
    parseNum k s =
      (match decDigits? s.data with
       | none => .err (.numError "ParseUint" s .syntaxK)
       | some n =>
         if n < 2 ^ k.bits then .ok (.vnum k (n : ℚ))
         else .err (.numError "ParseUint" s .rangeK)) := by
  simp [parseNum, hf, hu]

lemma parseNum_int_def (k : NumKind) (s : String) (hf : k.isFloat = false)
    (hu : k.isUint = false) :
    parseNum k s =
      (match intLit? s.data with
       | none => .err (.numError "ParseInt" s .syntaxK)
       | some v =>
         if inRangeI k.bits v then .ok (.vnum k (v : ℚ))
         else .err (.numError "ParseInt" s .rangeK)) := by
  simp [parseNum, hf, hu]

lemma parseNum_uint_some (k : NumKind) (s : String) (m : Nat) (hf : k.isFloat = false)
    (hu : k.isUint = true) (hd : decDigits? s.data = some m) :
    parseNum k s =
      (if m < 2 ^ k.bits then .ok (.vnum k (m : ℚ))
       else .err (.numError "ParseUint" s .rangeK)) := by
  rw [parseNum_uint_def k s hf hu, hd]

lemma parseNum_int_some (k : NumKind) (s : String) (m : Int) (hf : k.isFloat = false)
    (hu : k.isUint = false) (hd : intLit? s.data = some m) :
    parseNum k s =
      (if inRangeI k.bits m then .ok (.vnum k (m : ℚ))
       else .err (.numError "ParseInt" s .rangeK)) := by
  rw [parseNum_int_def k s hf hu, hd]

lemma intRangeB_uint_iff (k : NumKind) (n : Int) (hu : k.isUint = true) :
    intRangeB k n = true ↔ 0 ≤ n ∧ n < 2 ^ k.bits := by
  simp [intRangeB, hu]

lemma intRangeB_int_iff (k : NumKind) (n : Int) (hu : k.isUint = false) :
    intRangeB k n = true ↔ inRangeI k.bits n := by
  simp [intRangeB, hu, inRangeI]

lemma parseNum_intDec (k : NumKind) (n : Int) (hf : k.isFloat = false)
    (hr : intRangeB k n = true) :
    parseNum k (intDec n) = .ok (.vnum k (n : ℚ)) := by
  by_cases hu : k.isUint = true
  · have hR : 0 ≤ n ∧ n < 2 ^ k.bits := (intRangeB_uint_iff k n hu).mp hr
    have h0 : ¬n < 0 := by omega
    have hd : intDec n = natDec n.toNat := by simp [intDec, h0]
    have hlt : n.toNat < 2 ^ k.bits := by
      have h2 : ((n.toNat : ℤ)) < 2 ^ k.bits := by omega
      exact_mod_cast h2
    have hcast : ((n.toNat : Nat) : ℚ) = (n : ℚ) := by
      exact_mod_cast congrArg (fun z : ℤ => (z : ℚ)) (Int.toNat_of_nonneg hR.1)
    rw [hd, parseNum_uint_some k _ n.toNat hf hu (decDigits?_natDec n.toNat),
      if_pos hlt, hcast]
  · have hu' : k.isUint = false := by simpa using hu
    have hR : inRangeI k.bits n := (intRangeB_int_iff k n hu').mp hr
    have hm : intLit? (intDec n).data = some n := by
      by_cases hn : n < 0
      · have hd : (intDec n).data = '-' :: (natDec n.natAbs).data := by
          simp [intDec, hn]
        rw [hd]
        show (decDigits? (natDec n.natAbs).data).map (fun m => -(m : Int)) = some n
        rw [decDigits?_natDec]
        show some (-(n.natAbs : Int)) = some n
        congr 1
        omega
      · have hd : intDec n = natDec n.toNat := by simp [intDec, hn]
        rw [hd, intLit?_natDec]
        congr 1
        omega
    rw [parseNum_int_some k _ n hf hu' hm, if_pos hR]

lemma parseNum_lit_ok (k : NumKind) (s : String) (n : Int) (hf : k.isFloat = false)
    (hlit : numLit? k s = some n) (hr : intRangeB k n = true) :
    parseNum k s = .ok (.vnum k (n : ℚ)) := by
  by_cases hu : k.isUint = true
  · simp only [numLit?, hu, if_true, ite_true] at hlit
    cases hd : decDigits? s.data with
    | none => rw [hd] at hlit; exact Option.noConfusion hlit
    | some m =>
      rw [hd] at hlit
      have hmn : ((m : Nat) : Int) = n := Option.some.inj hlit
      have hR : 0 ≤ n ∧ n < 2 ^ k.bits := (intRangeB_uint_iff k n hu).mp hr
      have hm : m < 2 ^ k.bits := by
        have h2 : ((m : ℤ)) < 2 ^ k.bits := by omega
        exact_mod_cast h2
      have hcast : ((m : Nat) : ℚ) = (n : ℚ) := by
        rw [← hmn]
        push_cast
        ring
      rw [parseNum_uint_some k s m hf hu hd, if_pos hm, hcast]
  · have hu' : k.isUint = false := by simpa using hu
    simp only [numLit?, hu', if_false, Bool.false_eq_true, ite_false] at hlit
    have hR : inRangeI k.bits n := (intRangeB_int_iff k n hu').mp hr
    rw [parseNum_int_some k s n hf hu' hlit, if_pos hR]

lemma parseNum_lit_range (k : NumKind) (s : String) (n : Int) (hf : k.isFloat = false)
    (hlit : numLit? k s = some n) (hr : intRangeB k n = false) :
    parseNum k s = .err (.numError (pfn k) s .rangeK) := by
  by_cases hu : k.isUint = true
  · simp only [numLit?, hu, if_true, ite_true] at hlit
    cases hd : decDigits? s.data with
    | none => rw [hd] at hlit; exact Option.noConfusion hlit
    | some m =>
      rw [hd] at hlit
      have hmn : ((m : Nat) : Int) = n := Option.some.inj hlit
      have hR : ¬(0 ≤ n ∧ n < 2 ^ k.bits) := by
        intro hx
        rw [(intRangeB_uint_iff k n hu).mpr hx] at hr
        exact Bool.noConfusion hr
      have hm : ¬m < 2 ^ k.bits := by
        intro hlt
        apply hR
        refine ⟨by omega, ?_⟩
        rw [← hmn]
        exact_mod_cast hlt
      rw [parseNum_uint_some k s m hf hu hd, if_neg hm]
      simp [pfn, hu]
  · have hu' : k.isUint = false := by simpa using hu
    simp only [numLit?, hu', if_false, Bool.false_eq_true, ite_false] at hlit
    have hR : ¬inRangeI k.bits n := by
      intro hx
      rw [(intRangeB_int_iff k n hu').mpr hx] at hr
      exact Bool.noConfusion hr
    rw [parseNum_int_some k s n hf hu' hlit, if_neg hR]
    simp [pfn, hu']

lemma parseNum_ok_range (k : NumKind) (s : String) (v : GoValue) (hf : k.isFloat = false)
    (h : parseNum k s = .ok v) :
    ∃ n : Int, v = .vnum k (n : ℚ) ∧ intRangeB k n = true := by
  by_cases hu : k.isUint = true
  · cases hd : decDigits? s.data with
    | none =>
      rw [parseNum_uint_def k s hf hu, hd] at h
      exact Out.noConfusion h
    | some m =>
      rw [parseNum_uint_some k s m hf hu hd] at h
      by_cases hm : m < 2 ^ k.bits
      · rw [if_pos hm] at h
        have hv := Out.ok.inj h
        refine ⟨(m : ℤ), ?_, ?_⟩
        · rw [← hv]
          norm_cast
        · refine (intRangeB_uint_iff k _ hu).mpr ⟨by omega, ?_⟩
          exact_mod_cast hm
      · rw [if_neg hm] at h
        exact Out.noConfusion h
  · have hu' : k.isUint = false := by simpa using hu
    cases hd : intLit? s.data with
    | none =>
      rw [parseNum_int_def k s hf hu', hd] at h
      exact Out.noConfusion h
    | some m =>
      rw [parseNum_int_some k s m hf hu' hd] at h
      by_cases hm : inRangeI k.bits m
      · rw [if_pos hm] at h
        exact ⟨m, (Out.ok.inj h).symm, (intRangeB_int_iff k m hu').mpr hm⟩
      · rw [if_neg hm] at h
        exact Out.noConfusion h

lemma parseNum_float_overflow (k : NumKind) (s : String) (q : ℚ) (hfl : k.isFloat = true)
    (hq : floatSyn? s.data = some q) (hov : fltOverflow (fltBound k.bits) q = true) :
    parseNum k s = .err (.numError "ParseFloat" s .rangeK) := by
  simp [parseNum, hfl, hq, hov]

lemma fmtD_int (k : NumKind) (hf : k.isFloat = false) (n : Int) :
    fmtD k ((n : ℚ)) = intDec n := by
  simp [fmtD, hf, Rat.num_intCast]



/-! ## Concrete types, environments and sources used by the witnesses -/

/-- The `Role` struct type of the repository's tests, whose pointer
implements `Unmarshaler`. -/
def roleT : GoType := .named "Role" .structB

/-- A user-defined integer type (`type MyInt int`). -/
def myIntT : GoType := .named "MyInt" (numT .ki)

/-- An environment where `Role.UnmarshalString` stores the input. -/
def roleEnv : UEnv := fun n => if n = "Role" then some (fun s => .ok s) else none

/-- An environment where `Role.UnmarshalString` always fails. -/
def roleFailEnv : UEnv :=
  fun n => if n = "Role" then some (fun s => .error ("cannot parse " ++ s)) else none

/-- Field `A` of the fail-fast example: a tagged string field. -/
def fldA : Field := ⟨"A", true, some "a", stringT, .vstr ""⟩

/-- Field `B` of the fail-fast example: an `int8` field whose raw value
overflows. -/
def fldB : Field := ⟨"B", true, some "b", numT .ki8, .vnum .ki8 0⟩

/-- Field `C` of the fail-fast example: a tagged string field after `B`. -/
def fldC : Field := ⟨"C", true, some "c", stringT, .vstr ""⟩

/-- A field whose source lookup is absent. -/
def fldZ : Field := ⟨"Z", true, some "zz", stringT, .vstr "keep"⟩

/-- A `MyInt` field fed from a string source. -/
def fldM : Field := ⟨"M", true, some "m", myIntT, .vnum .ki 0⟩

/-- The source of the fail-fast example: `a` and `c` hold valid strings,
`b` holds text that overflows an `int8`; casts via `DefaultCast`. -/
def srcABC : Source :=
  ⟨fun key =>
     if key = "a" then .vstr "x"
     else if key = "b" then .vstr "999"
     else if key = "c" then .vstr "y"
     else .vnil,
   some (DefaultCast env0)⟩

/-- A source holding `"5"` under key `m`, casting via `DefaultCast`. -/
def srcM : Source :=
  ⟨fun key => if key = "m" then .vstr "5" else .vnil, some (DefaultCast env0)⟩

/-! ## The claims -/

/-- C1: for every record and every source exposing the coercion
capability, when the coercion of a field's raw value fails, `Decode`
aborts immediately with the underlying error wrapped as `CastError`; every
earlier field keeps exactly the effect of its own iteration (`applyProc`
mutates it precisely when its value was present and assignable or
coercible, and leaves it alone when it was skipped), and the failing field
and every later field keep their pre-decode values. -/
theorem c1_failfast_castError (sname : String) (src : Source)
    (c : GoValue → GoType → Out GoValue) (pre post : List Field) (f : Field)
    (k : String) (e : GoErr)
    (hc : src.cast = some c) (hex : f.exported = true) (htag : f.tag = some k)
    (hnil : isNil (src.get k) = false) (hz : isZero (src.get k) = false)
    (ha : assignable (dynTy (src.get k)) f.ftype = false)
    (herr : c (src.get k) f.ftype = .err e)
    (hpre : ∀ g ∈ pre, (procField sname src g).isStep = true) :
    Decode src (.ptrStruct sname (pre ++ f :: post)) =
      .err (pre.map (applyProc sname src) ++ f :: post) (.castError e) := by
  have hp : procField sname src f = .fail (.castError e) := by
    simp [procField, hex, htag, hnil, hz, ha, hc, herr]
  exact decodeFields_fail sname src pre f post (.castError e) hpre hp

/-- Witness for C1 at the spec's `[A: valid, B: invalid-cast, C: valid]`
example: `A` is mutated, decode aborts with `B`'s wrapped range error, and
`C` keeps its pre-decode value. -/
theorem c1_failfast_castError_witness :
    Decode srcABC (.ptrStruct "Params" [fldA, fldB, fldC]) =
      .err [{ fldA with value := .vstr "x" }, fldB, fldC]
        (.castError (.numError "ParseInt" "999" .rangeK)) := by
  have h := c1_failfast_castError "Params" srcABC (DefaultCast env0) [fldA] [fldC]
    fldB "b" (.numError "ParseInt" "999" .rangeK) rfl rfl rfl rfl rfl rfl rfl
    (by
      intro g hg
      rw [List.mem_singleton] at hg
      subst hg
      rfl)
  exact h

/-- C2: a field whose source lookup is absent (`nil`) or a representational
zero value is skipped: its loop iteration is a `skip` (no mutation, no
error), and whatever the whole decode returns, that field's final state
equals its pre-decode state. -/
theorem c2_skip_absent (sname : String) (src : Source) (fs : List Field) (i : Nat)
    (f : Field) (k : String) (hf : fs[i]? = some f) (htag : f.tag = some k)
    (habs : src.get k = .vnil ∨ isZero (src.get k) = true) :
    procField sname src f = .skip ∧
      ((decodeFields sname src fs).fields)[i]? = some f := by
  have hz : isZero (src.get k) = true := by
    rcases habs with h | h
    · rw [h]
      rfl
    · exact h
  have hskip := procField_skip sname src f k htag hz
  exact ⟨hskip, decodeFields_get? sname src fs i f hf hskip⟩

/-- Witness for C2: a field whose key the source does not hold is skipped
and survives the decode of its record unchanged. -/
theorem c2_skip_absent_witness :
    procField "Params" srcABC fldZ = .skip ∧
      ((decodeFields "Params" srcABC [fldA, fldZ]).fields)[1]? = some fldZ :=
  c2_skip_absent "Params" srcABC [fldA, fldZ] 1 fldZ "zz" rfl rfl (Or.inl rfl)

/-- Counterexample to C3 as stated: for the sequence target `[]MyInt`
(`type MyInt int`), every part casts fine (second conjunct), but collecting
the results panics — `reflect.Append` receives a predeclared `int` that is
not assignable to `MyInt` — so the cast neither returns the collected
sequence nor an element's error. -/
theorem c3_sequence_cast_cex :
    DefaultCast env0 (.vstr "5") (.sliceT myIntT) = .pnc ∧
    DefaultCast env0 (.vstr "5") myIntT = .ok (.vnum .ki 5) :=
  ⟨rfl, rfl⟩

/-- C3 (amended): cast of text to a sequence target splits on the comma;
a text element type returns the split parts verbatim in order (as a
`[]string` value); otherwise each part is cast recursively in order, the
first element failure aborts the whole cast with that element's error and
no partial sequence, and when every part casts to a value assignable to
the element type the results are collected in order; if an element cast
succeeds with a value that is not assignable to the element type (a
defined type of numeric or boolean kind), the collection step panics
instead of collecting. -/
theorem c3_sequence_cast (env : UEnv) (s : String) (tgt : GoType)
    (hk : kindOf tgt = .kslice) :
    (kindOf (elemTy tgt) = .kstring →
       DefaultCast env (.vstr s) tgt =
         .ok (.vslice (.sliceT (.prim .pstring)) ((goSplit s).map GoValue.vstr))) ∧
    (kindOf (elemTy tgt) ≠ .kstring →
       (∀ vs, List.Forall₂
            (fun e v => DefaultCast env (.vstr e) (elemTy tgt) = .ok v ∧
              setOK v (elemTy tgt) = true) (goSplit s) vs →
          DefaultCast env (.vstr s) tgt = .ok (.vslice tgt vs)) ∧
       (∀ l1 e l2 er, goSplit s = l1 ++ e :: l2 →
          (∀ x ∈ l1, ∃ v, DefaultCast env (.vstr x) (elemTy tgt) = .ok v ∧
             setOK v (elemTy tgt) = true) →
          DefaultCast env (.vstr e) (elemTy tgt) = .err er →
          DefaultCast env (.vstr s) tgt = .err er) ∧
       (∀ l1 e l2 v, goSplit s = l1 ++ e :: l2 →
          (∀ x ∈ l1, ∃ w, DefaultCast env (.vstr x) (elemTy tgt) = .ok w ∧
             setOK w (elemTy tgt) = true) →
          DefaultCast env (.vstr e) (elemTy tgt) = .ok v →
          setOK v (elemTy tgt) = false →
          DefaultCast env (.vstr s) tgt = .pnc)) := by
  refine ⟨fun he => DefaultCast_vstr_slice_string env s tgt hk he,
    fun he => ⟨?_, ?_, ?_⟩⟩
  · intro vs hvs
    rw [DefaultCast_vstr_slice env s tgt hk he,
      castParts_forall₂ (fun e => DefaultCast env (.vstr e) (elemTy tgt))
        (elemTy tgt) (goSplit s) vs hvs]
  · intro l1 e l2 er hsplit hpre herr
    rw [DefaultCast_vstr_slice env s tgt hk he, hsplit,
      castParts_err (fun x => DefaultCast env (.vstr x) (elemTy tgt))
        (elemTy tgt) l1 e l2 er hpre herr]
  · intro l1 e l2 v hsplit hpre hok hbad
    rw [DefaultCast_vstr_slice env s tgt hk he, hsplit,
      castParts_pnc (fun x => DefaultCast env (.vstr x) (elemTy tgt))
        (elemTy tgt) l1 e l2 v hpre hok hbad]

/-- Witness for C3 at the spec's examples: `"6,7,8"` to `[]int` yields
`[6, 7, 8]` in order, and `"sepia,monochrome"` to `[]string` yields the
split parts verbatim. -/
theorem c3_sequence_cast_witness :
    DefaultCast env0 (.vstr "6,7,8") (.sliceT (numT .ki)) =
      .ok (.vslice (.sliceT (numT .ki)) [.vnum .ki 6, .vnum .ki 7, .vnum .ki 8]) ∧
    DefaultCast env0 (.vstr "sepia,monochrome") (.sliceT stringT) =
      .ok (.vslice (.sliceT stringT) [.vstr "sepia", .vstr "monochrome"]) := by
  constructor
  · exact ((c3_sequence_cast env0 "6,7,8" (.sliceT (numT .ki)) rfl).2 (by decide)).1
      [.vnum .ki 6, .vnum .ki 7, .vnum .ki 8]
      (.cons ⟨rfl, rfl⟩ (.cons ⟨rfl, rfl⟩ (.cons ⟨rfl, rfl⟩ .nil)))
  · exact (c3_sequence_cast env0 "sepia,monochrome" (.sliceT stringT) rfl).1 rfl

/-- C4: for every text input and every target of integer kind, the cast
parses at exactly the kind's declared bit width: an in-range literal yields
exactly its value, an out-of-range literal is a reported range failure with
no value, and any successful cast carries a value within the declared
range (no truncation or wraparound); for float kinds, a parsed value at or
beyond the width's overflow boundary is a reported range failure. -/
theorem c4_bitwidth_overflow (env : UEnv) (s : String) (tgt : GoType) (k : NumKind)
    (hk : kindOf tgt = .knum k) :
    (k.isInt = true → ∀ n : ℤ, numLit? k s = some n →
       (intRangeB k n = true → DefaultCast env (.vstr s) tgt = .ok (.vnum k (n : ℚ))) ∧
       (intRangeB k n = false →
          DefaultCast env (.vstr s) tgt = .err (.numError (pfn k) s .rangeK))) ∧
    (k.isInt = true → ∀ v, DefaultCast env (.vstr s) tgt = .ok v →
       ∃ n : ℤ, v = .vnum k (n : ℚ) ∧ intRangeB k n = true) ∧
    (k.isFloat = true → ∀ q, floatSyn? s.data = some q →
       fltOverflow (fltBound k.bits) q = true →
       DefaultCast env (.vstr s) tgt = .err (.numError "ParseFloat" s .rangeK)) := by
  rw [DefaultCast_vstr_num env s tgt k hk]
  refine ⟨?_, ?_, ?_⟩
  · intro hi n hlit
    have hf : k.isFloat = false := by simpa [NumKind.isInt] using hi
    exact ⟨parseNum_lit_ok k s n hf hlit, parseNum_lit_range k s n hf hlit⟩
  · intro hi v hv
    have hf : k.isFloat = false := by simpa [NumKind.isInt] using hi
    exact parseNum_ok_range k s v hf hv
  · intro hfl q hq hov
    exact parseNum_float_overflow k s q hfl hq hov

/-- Witness for C4 at the spec's overflow example: casting the text
`"999999999999999999999"` to an 8-bit integer fails with a range error and
assigns no value. -/
theorem c4_bitwidth_overflow_witness :
    DefaultCast env0 (.vstr "999999999999999999999") (numT .ki8) =
      .err (.numError "ParseInt" "999999999999999999999" .rangeK) := by
  have h := ((c4_bitwidth_overflow env0 "999999999999999999999" (numT .ki8) .ki8
      rfl).1 rfl 999999999999999999999 rfl).2 rfl
  exact h

/-- C5 (evaluation at the failing input): the claim requires every zero
numeric value to cast to `false`, but the source's `from != 0` compares
interface values against `any(int(0))`, so a zero `uint8` and a zero
`float64` cast to `true`; only the predeclared `int` zero yields `false`. -/
theorem c5_numeric_bool_eval :
    DefaultCast env0 (.vnum .ku8 0) boolT = .ok (.vbool true) ∧
    DefaultCast env0 (.vnum .kf64 0) boolT = .ok (.vbool true) ∧
    DefaultCast env0 (.vnum .ki 0) boolT = .ok (.vbool false) ∧
    DefaultCast env0 (.vnum .ki 5) boolT = .ok (.vbool true) :=
  ⟨rfl, rfl, rfl, rfl⟩

/-- Counterexample to C6's "distinguishes the three violation cases": a
non-reference target of type `int` and a non-nil reference to the
non-record type `int` produce `InvalidUnmarshalError`s carrying the same
type and rendering the same "non-pointer" description, because for the
second the stored type is the element type (`rt.Elem()` already ran). -/
theorem c6_invalid_target_cex :
    Decode src0 (.nonPtr (numT .ki)) =
      .err [] (.invalidUnmarshal (some (numT .ki))) ∧
    Decode src0 (.ptrNonStruct (numT .ki)) =
      .err [] (.invalidUnmarshal (some (numT .ki))) ∧
    errMsg (.invalidUnmarshal (some (numT .ki))) =
      "structd: Unmarshal(non-pointer int)" :=
  ⟨rfl, rfl, rfl⟩

/-- C6 (amended): every invalid target is rejected immediately with an
`InvalidUnmarshalError` and nothing is mutated; the message distinguishes
the nil target, the non-reference target and the nil record reference, but
a non-nil reference to a non-record stores only the element type, so its
message renders with the "non-pointer" wording of a non-reference. -/
theorem c6_invalid_target (src : Source) (t : GoType) :
    (Decode src .tnil = .err [] (.invalidUnmarshal none) ∧
       errMsg (.invalidUnmarshal none) = "structd: Unmarshal(nil)") ∧
    (Decode src (.nonPtr t) = .err [] (.invalidUnmarshal (some t))) ∧
    (kindOf t ≠ .kptr →
       errMsg (.invalidUnmarshal (some t)) =
         "structd: Unmarshal(non-pointer " ++ typeString t ++ ")") ∧
    (Decode src (.nilPtr t) = .err [] (.invalidUnmarshal (some (.ptrT t)))) ∧
    (kindOf t = .kstruct →
       errMsg (.invalidUnmarshal (some (.ptrT t))) =
         "structd: Unmarshal(nil " ++ typeString (.ptrT t) ++ ")") ∧
    (Decode src (.ptrNonStruct t) = .err [] (.invalidUnmarshal (some t))) := by
  refine ⟨⟨rfl, rfl⟩, rfl, ?_, rfl, ?_, rfl⟩
  · intro hnp
    simp [errMsg, invalidMsg, hnp]
  · intro hs
    simp [errMsg, invalidMsg, kindOf, elemTy, hs]

/-- Witness for C6: the message equations at a numeric type and at a
struct pointer type. -/
theorem c6_invalid_target_witness :
    errMsg (.invalidUnmarshal (some (numT .ki))) =
      "structd: Unmarshal(non-pointer int)" ∧
    errMsg (.invalidUnmarshal (some (.ptrT roleT))) =
      "structd: Unmarshal(nil *Role)" := by
  constructor
  · exact (c6_invalid_target src0 (numT .ki)).2.2.1 (by decide)
  · exact (c6_invalid_target src0 roleT).2.2.2.2.1 rfl

/-- C7: for text input and a target type implementing the custom-decode
capability that matches none of the built-in kinds (numeric, bool, slice),
the cast invokes `UnmarshalString` on a fresh zero instance: on success it
returns the mutated instance, and on failure it returns an
`UnmarshalerError` carrying the original text and the target type,
wrapping the capability's own error. -/
theorem c7_unmarshaler_fallback (env : UEnv) (s : String) (tgt : GoType)
    (um : String → Except String String) (hum : umLookup env tgt = some um)
    (hnum : ∀ k, kindOf tgt ≠ .knum k) (hbool : kindOf tgt ≠ .kbool)
    (hslice : kindOf tgt ≠ .kslice) :
    (∀ st, um s = .ok st → DefaultCast env (.vstr s) tgt = .ok (.vnamed tgt st)) ∧
    (∀ m, um s = .error m →
       DefaultCast env (.vstr s) tgt = .err (.unmarshalerError m s tgt)) := by
  have hk : kindOf tgt = .kstring ∨ kindOf tgt = .kptr ∨ kindOf tgt = .kstruct := by
    cases h : kindOf tgt with
    | kstring => exact Or.inl rfl
    | kptr => exact Or.inr (Or.inl rfl)
    | kstruct => exact Or.inr (Or.inr rfl)
    | kbool => exact absurd h hbool
    | kslice => exact absurd h hslice
    | knum k => exact absurd h (hnum k)
  constructor
  · intro st hst
    rw [DefaultCast_vstr_default env s tgt hk, hum]
    show (match um s with
          | Except.error m => Out.err (GoErr.unmarshalerError m s tgt)
          | Except.ok st => Out.ok (GoValue.vnamed tgt st)) = _
    rw [hst]
  · intro m hm
    rw [DefaultCast_vstr_default env s tgt hk, hum]
    show (match um s with
          | Except.error m => Out.err (GoErr.unmarshalerError m s tgt)
          | Except.ok st => Out.ok (GoValue.vnamed tgt st)) = _
    rw [hm]

/-- Witness for C7 at the tests' `Role` type and raw text `"admin"`: the
storing implementation yields the decoded instance, the failing one yields
the wrapping `UnmarshalerError`. -/
theorem c7_unmarshaler_fallback_witness :
    DefaultCast roleEnv (.vstr "admin") roleT = .ok (.vnamed roleT "admin") ∧
    DefaultCast roleFailEnv (.vstr "admin") roleT =
      .err (.unmarshalerError "cannot parse admin" "admin" roleT) := by
  constructor
  · exact (c7_unmarshaler_fallback roleEnv "admin" roleT (fun x => .ok x) rfl
      (fun k h => Kind.noConfusion h) (fun h => Kind.noConfusion h)
      (fun h => Kind.noConfusion h)).1 "admin" rfl
  · exact (c7_unmarshaler_fallback roleFailEnv "admin" roleT
      (fun x => .error ("cannot parse " ++ x)) rfl
      (fun k h => Kind.noConfusion h) (fun h => Kind.noConfusion h)
      (fun h => Kind.noConfusion h)).2 "cannot parse admin" rfl

/-- C8: for every integer kind and every value in its declared range,
casting the canonical decimal text to that integer type yields exactly the
value, and casting the value back to text reproduces the text. -/
theorem c8_decimal_roundtrip (env : UEnv) (k : NumKind) (n : Int)
    (hint : k.isInt = true) (hr : intRangeB k n = true) :
    DefaultCast env (.vstr (intDec n)) (numT k) = .ok (.vnum k (n : ℚ)) ∧
    DefaultCast env (.vnum k (n : ℚ)) stringT = .ok (.vstr (intDec n)) := by
  have hf : k.isFloat = false := by simpa [NumKind.isInt] using hint
  constructor
  · rw [DefaultCast_vstr_num env (intDec n) (numT k) k rfl]
    exact parseNum_intDec k n hf hr
  · rw [DefaultCast_vnum env k ((n : ℚ)) stringT]
    show Out.ok (GoValue.vstr (fmtD k ((n : ℚ)))) = _
    rw [fmtD_int k hf n]

/-- Witness for C8 at `int8` and `-57`. -/
theorem c8_decimal_roundtrip_witness :
    DefaultCast env0 (.vstr "-57") (numT .ki8) = .ok (.vnum .ki8 ((-57 : ℤ) : ℚ)) ∧
    DefaultCast env0 (.vnum .ki8 ((-57 : ℤ) : ℚ)) stringT = .ok (.vstr "-57") := by
  have h := c8_decimal_roundtrip env0 .ki8 (-57) rfl (by decide)
  exact ⟨h.1, h.2⟩

/-- C9 (evaluation at the failing input): the claim requires every numeric
value, floating point included, to format as a base-10 decimal; integer
kinds do, but a float argument makes `%d` a bad verb and `fmt` returns the
error-annotated `%!d(float64=7)` instead of `7`. -/
theorem c9_numeric_string_eval :
    DefaultCast env0 (.vnum .ki64 (-5)) stringT = .ok (.vstr "-5") ∧
    DefaultCast env0 (.vnum .ku8 7) stringT = .ok (.vstr "7") ∧
    DefaultCast env0 (.vnum .kf64 7) stringT = .ok (.vstr "%!d(float64=7)") ∧
    "%!d(float64=7)" ≠ "7" :=
  ⟨rfl, rfl, rfl, by decide⟩

/-- C10: `value.Set(reflect.ValueOf(casted))` is unchecked: when the
source's cast succeeds but returns a value whose dynamic type is not
assignable to the field type, `Decode` panics instead of returning an
error, so it is not total over well-typed inputs. -/
theorem c10_unchecked_set_pnc (sname : String) (src : Source)
    (c : GoValue → GoType → Out GoValue) (f : Field) (fs : List Field)
    (k : String) (v : GoValue)
    (hc : src.cast = some c) (hex : f.exported = true) (htag : f.tag = some k)
    (hnil : isNil (src.get k) = false) (hz : isZero (src.get k) = false)
    (ha : assignable (dynTy (src.get k)) f.ftype = false)
    (hok : c (src.get k) f.ftype = .ok v)
    (hbad : setOK v f.ftype = false) :
    Decode src (.ptrStruct sname (f :: fs)) = .pnc (f :: fs) := by
  have hp : procField sname src f = .pnc := by
    simp [procField, hex, htag, hnil, hz, ha, hc, hok, hbad]
  show decodeFields sname src (f :: fs) = _
  simp [decodeFields, hp]

/-- Witness for C10: a `MyInt` field fed `"5"` through `DefaultCast` —
the cast returns a predeclared `int`, the reflective set panics. -/
theorem c10_unchecked_set_pnc_witness :
    Decode srcM (.ptrStruct "T" [fldM]) = .pnc [fldM] :=
  c10_unchecked_set_pnc "T" srcM (DefaultCast env0) fldM [] "m" (.vnum .ki 5)
    rfl rfl rfl rfl rfl rfl rfl rfl

end Structd
